import Mathlib

/-!
Verification of the SwarLoop ML service's mood-fusion and catalog-scoring
core (src/ml-service/main.py) against its specification.

Python's float arithmetic is embedded into `ℚ`; dictionaries (which are
insertion-ordered in Python) are embedded as association lists with unique
keys, so that order-dependent behaviour (`max` over a dict, stable `sort`)
is captured faithfully.
-/

namespace SwarLoop

/-- An insertion-ordered string-keyed map of numeric values, the shape of
`emotions`, `sentiment_scores`, `audio_features`, and `mood_emotions`. -/
abbrev Dist := List (String × ℚ)

/-- Python `d.get(k, dflt)`. -/
def getD (d : Dist) (k : String) (dflt : ℚ) : ℚ := (d.lookup k).getD dflt

/-- Python `combined[emotion] *= 1.2` applied to every key of `keys` present in the
map (the loop bodies at main.py lines 229-231 and 234-236). -/
def boost (keys : List String) (combined : Dist) : Dist :=
  combined.map (fun p => if p.1 ∈ keys then (p.1, p.2 * 1.2) else p)

/-- The sentiment-adjustment stage of `combine_emotion_sentiment`
(main.py lines 227-236): boost positive emotions when `POSITIVE > 0.5`,
else boost negative emotions when `NEGATIVE > 0.5`. -/
def sentimentAdjust (emotions sentiment : Dist) : Dist :=
  if getD sentiment "POSITIVE" 0 > 0.5 then
    boost ["joy", "love", "optimism"] emotions
  else if getD sentiment "NEGATIVE" 0 > 0.5 then
    boost ["sadness", "anger", "fear"] emotions
  else
    emotions

/-- Embedding of `combine_emotion_sentiment` (main.py lines 222-243): copy, adjust by
sentiment, then renormalize when the total is positive. -/
def combine_emotion_sentiment (emotions sentiment : Dist) : Dist :=
  let combined := sentimentAdjust emotions sentiment
  let total := (combined.map Prod.snd).sum
  if total > 0 then combined.map (fun p => (p.1, p.2 / total)) else combined

/-- Python's `max(d, key=d.get)` over an insertion-ordered dict: the first
entry attaining the maximal value wins (CPython replaces the running
maximum only on a strictly greater key, so the overall result is the first
entry attaining the overall maximum, which this right fold also returns);
`none` models the `ValueError` raised on an empty dict.  Used at main.py
lines 135, 162 and 377. -/
def pyMax : List (String × ℚ) → Option (String × ℚ)
  | [] => none
  | p :: rest =>
    match pyMax rest with
    | none => some p
    | some r => some (if r.2 > p.2 then r else p)

/-- The base-score table of `emotion_to_mood_score` (main.py lines 247-256),
in the source's insertion order. -/
def emotion_scores : Dist :=
  [("joy", 9), ("love", 8), ("optimism", 7), ("neutral", 5),
   ("sadness", 3), ("anger", 2), ("fear", 2), ("surprise", 6)]

/-- Embedding of `emotion_to_mood_score` (main.py lines 245-261): base score from the
table (default 5), shifted by `(confidence - 0.5) * 2` and clamped to
`[1, 10]` via `max(1, min(10, adjusted_score))`. -/
def emotion_to_mood_score (emotion : String) (confidence : ℚ) : ℚ :=
  let base_score := (emotion_scores.lookup emotion).getD 5
  let adjusted_score := base_score + (confidence - 0.5) * 2
  max 1 (min 10 adjusted_score)

/-- The claim's base-score table, stated from the spec's words
(`joy=9, love=8, optimism=7, surprise=6, neutral=5, sadness=3, anger=2,
fear=2`, unrecognized label `5`), to be compared with the source's table. -/
def claimBaseScore (e : String) : ℚ :=
  if e = "joy" then 9
  else if e = "love" then 8
  else if e = "optimism" then 7
  else if e = "surprise" then 6
  else if e = "neutral" then 5
  else if e = "sadness" then 3
  else if e = "anger" then 2
  else if e = "fear" then 2
  else 5

/-- Embedding of `audio_features_to_emotions` (main.py lines 263-286): `joy`, `sadness`,
`anger`, `fear` from `valence`, `energy`, `danceability` (each defaulting to
0.5), normalized only when the total is positive.  The source first sets
`joy = valence` and later does `joy += danceability * 0.3`; the updated
value, in unchanged insertion order, is written directly here. -/
def audio_features_to_emotions (features : Dist) : Dist :=
  let valence := getD features "valence" 0.5
  let energy := getD features "energy" 0.5
  let danceability := getD features "danceability" 0.5
  let emotions : Dist :=
    [("joy", valence + danceability * 0.3), ("sadness", 1 - valence),
     ("anger", energy * 0.7), ("fear", energy * 0.3)]
  let total := (emotions.map Prod.snd).sum
  if total > 0 then emotions.map (fun p => (p.1, p.2 / total)) else emotions

/-- The audio-feature fields of a catalog track (every entry built by
`load_music_features`, main.py lines 331-336 and 344-349, carries exactly
these keys, so the scorer's direct indexing is total). -/
structure AudioFeatures where
  tempo : ℚ
  valence : ℚ
  energy : ℚ
  danceability : ℚ
deriving DecidableEq

/-- One catalog entry's `track_data` dict (main.py lines 325-336). -/
structure TrackData where
  id : String
  title : String
  artist : String
  genre_tags : List String
  mood_tags : List String
  audio_features : AudioFeatures
deriving DecidableEq

/-- One `scored_tracks` entry (main.py lines 407-413). -/
structure ScoredTrack where
  track_id : String
  title : String
  artist : String
  score : ℚ
  reason : String
deriving DecidableEq

/-- The `emotion_to_mood_tags` table (main.py lines 380-387). -/
def emotion_to_mood_tags : List (String × List String) :=
  [("joy", ["happy", "uplifting", "energetic"]),
   ("sadness", ["melancholic", "introspective", "calm"]),
   ("anger", ["calm", "peaceful", "meditative"]),
   ("fear", ["calm", "peaceful", "ambient"]),
   ("love", ["romantic", "warm", "uplifting"]),
   ("surprise", ["energetic", "uplifting", "happy"])]

/-- Python `set(track_data['mood_tags']) & set(target_mood_tags)` (main.py line
395) as a duplicate-free list. -/
def matching_mood_tags (target_mood_tags : List String)
    (track_data : TrackData) : List String :=
  track_data.mood_tags.dedup.filter (fun tag => decide (tag ∈ target_mood_tags))

/-- The per-track `score` (main.py lines 394-405): `len(matching_tags)*0.5`
plus the audio term that exists only for dominant `joy` and `sadness`. -/
def track_score (dominant_emotion : String) (target_mood_tags : List String)
    (track_data : TrackData) : ℚ :=
  let score : ℚ :=
    0 + ((matching_mood_tags target_mood_tags track_data).length : ℚ) * 0.5
  if dominant_emotion = "joy" then
    score + track_data.audio_features.valence * 0.3 +
      track_data.audio_features.energy * 0.2
  else if dominant_emotion = "sadness" then
    score + (1 - track_data.audio_features.valence) * 0.3 +
      (1 - track_data.audio_features.energy) * 0.2
  else
    score

/-- The dict appended per track (main.py lines 407-413). -/
def score_entry (dominant_emotion : String) (target_mood_tags : List String)
    (tp : String × TrackData) : ScoredTrack :=
  { track_id := tp.1, title := tp.2.title, artist := tp.2.artist,
    score := track_score dominant_emotion target_mood_tags tp.2,
    reason := "Matches [" ++
      String.intercalate ", " (matching_mood_tags target_mood_tags tp.2) ++
      "] mood tags for " ++ dominant_emotion }

/-- Python `scored_tracks.sort(key=lambda x: x['score'], reverse=True)` (main.py
line 416): Python's sort is stable, and a stable sort under a fixed key is
uniquely determined, so core `mergeSort` with `b.score ≤ a.score` is a
faithful model of the resulting list. -/
def pySortDesc (l : List ScoredTrack) : List ScoredTrack :=
  l.mergeSort (fun a b => decide (b.score ≤ a.score))

/-- The Python slice `l[:limit]` for an arbitrary integer bound (main.py
line 417): nonnegative bounds truncate from the front, negative bounds drop
the last `|limit|` entries. -/
def pySliceTo (l : List ScoredTrack) (limit : Int) : List ScoredTrack :=
  if 0 ≤ limit then l.take limit.toNat else l.take (l.length - (-limit).toNat)

/-- Embedding of `get_mood_based_recommendations` (main.py lines 371-417), over an
explicit catalog (the process-global `music_features`, assumed loaded as in
the claims).  `none` models the `ValueError` that `max` raises on an empty
mood map, surfaced by the endpoint as an error response; no `limit`
validation of any kind is performed. -/
def get_mood_based_recommendations (music_features : List (String × TrackData))
    (mood_emotions : Dist) (limit : Int) : Option (List ScoredTrack) :=
  match pyMax mood_emotions with
  | none => none
  | some dom =>
    let target_mood_tags := (emotion_to_mood_tags.lookup dom.1).getD ["neutral"]
    let scored_tracks := music_features.map (score_entry dom.1 target_mood_tags)
    some (pySliceTo (pySortDesc scored_tracks) limit)

/-- The demo catalog of `load_music_features` (main.py lines 321-351). -/
def load_music_features : List (String × TrackData) :=
  [("sample_track_1",
    { id := "sample_track_1", title := "Calm Song", artist := "Artist 1",
      genre_tags := ["ambient", "calm"], mood_tags := ["calm", "peaceful"],
      audio_features :=
        { tempo := 60, valence := 0.8, energy := 0.3, danceability := 0.2 } }),
   ("sample_track_2",
    { id := "sample_track_2", title := "Energetic Song", artist := "Artist 2",
      genre_tags := ["electronic", "dance"], mood_tags := ["energetic", "happy"],
      audio_features :=
        { tempo := 128, valence := 0.9, energy := 0.8, danceability := 0.9 } })]

/-- A scored entry with trackId `b`, used to exhibit the tie-break order. -/
def tieB : ScoredTrack :=
  { track_id := "b", title := "Track B", artist := "Artist B", score := 1,
    reason := "" }

/-- A scored entry with trackId `a` and the same score as `tieB`. -/
def tieA : ScoredTrack :=
  { track_id := "a", title := "Track A", artist := "Artist A", score := 1,
    reason := "" }

/-- A sample track used to instantiate the per-track scoring theorem. -/
def witnessTrack : TrackData :=
  { id := "sample_track_1", title := "Calm Song", artist := "Artist 1",
    genre_tags := ["ambient", "calm"], mood_tags := ["calm", "peaceful"],
    audio_features :=
      { tempo := 60, valence := 0.8, energy := 0.3, danceability := 0.2 } }

/-! ## Theorems -/

/-- Summing an association list after dividing every value by `t`. -/
theorem sum_map_snd_div (l : Dist) (t : ℚ) :
    ((l.map (fun p => (p.1, p.2 / t))).map Prod.snd).sum =
      ((l.map Prod.snd).sum) / t := by
  induction l with
  | nil => simp
  | cons p rest ih =>
    simp only [List.map_cons, List.sum_cons, ih, add_div]

/-- C1: for nonnegative emotion and sentiment distributions whose
sentiment-adjusted working map has positive total,
`combine_emotion_sentiment` returns a distribution summing to 1 within
`1e-9` (in exact arithmetic the sum is exactly 1). -/
theorem combine_emotion_sentiment_sums_to_one (E S : Dist)
    (hE : ∀ p ∈ E, 0 ≤ p.2) (hS : ∀ p ∈ S, 0 ≤ p.2)
    (hpos : 0 < ((sentimentAdjust E S).map Prod.snd).sum) :
    |((combine_emotion_sentiment E S).map Prod.snd).sum - 1| ≤ 1 / 1000000000 := by
  unfold combine_emotion_sentiment
  simp only []
  rw [if_pos hpos, sum_map_snd_div, div_self (ne_of_gt hpos)]
  norm_num

/-- Witness for C1 at the spec's worked example inputs. -/
theorem combine_emotion_sentiment_sums_to_one_witness :
    |((combine_emotion_sentiment
        [("joy", 0.4), ("sadness", 0.3), ("anger", 0.2), ("fear", 0.1)]
        [("POSITIVE", 0.7), ("NEGATIVE", 0.1), ("NEUTRAL", 0.2)]).map Prod.snd).sum
        - 1| ≤ 1 / 1000000000 :=
  combine_emotion_sentiment_sums_to_one
    [("joy", 0.4), ("sadness", 0.3), ("anger", 0.2), ("fear", 0.1)]
    [("POSITIVE", 0.7), ("NEGATIVE", 0.1), ("NEUTRAL", 0.2)]
    (by intro p hp
        simp only [List.mem_cons, List.not_mem_nil, or_false] at hp
        rcases hp with rfl | rfl | rfl | rfl <;> norm_num)
    (by intro p hp
        simp only [List.mem_cons, List.not_mem_nil, or_false] at hp
        rcases hp with rfl | rfl | rfl <;> norm_num)
    (by norm_num +decide [sentimentAdjust, boost, getD, List.lookup])

/-- Mapping a pair-to-pair function that keeps the first component fixed
does not change the key sequence. -/
theorem map_fst_of_preserved (l : Dist) (f : String × ℚ → String × ℚ)
    (h : ∀ p, (f p).1 = p.1) : (l.map f).map Prod.fst = l.map Prod.fst := by
  induction l with
  | nil => simp
  | cons p rest ih => simp [ih, h]

/-- C10: `combine_emotion_sentiment` never adds nor removes a label: its
output has exactly the label sequence of the input emotion distribution. -/
theorem combine_emotion_sentiment_preserves_labels (E S : Dist) :
    (combine_emotion_sentiment E S).map Prod.fst = E.map Prod.fst := by
  have hb : ∀ keys, (boost keys E).map Prod.fst = E.map Prod.fst := by
    intro keys
    apply map_fst_of_preserved
    intro p
    by_cases hp : p.1 ∈ keys <;> simp [hp]
  have hadj : (sentimentAdjust E S).map Prod.fst = E.map Prod.fst := by
    unfold sentimentAdjust
    split
    · exact hb _
    · split
      · exact hb _
      · rfl
  unfold combine_emotion_sentiment
  simp only []
  split
  · refine Eq.trans (map_fst_of_preserved _ _ ?_) hadj
    intro p
    rfl
  · exact hadj

/-- Function `pyMax` succeeds exactly on nonempty maps. -/
theorem pyMax_isSome_of_ne_nil (l : List (String × ℚ)) (h : l ≠ []) :
    ∃ r, pyMax l = some r := by
  match l with
  | [] => exact absurd rfl h
  | p :: rest =>
    unfold pyMax
    cases pyMax rest with
    | none => exact ⟨p, rfl⟩
    | some r => exact ⟨if r.2 > p.2 then r else p, rfl⟩

/-- The entry returned by `pyMax` splits the list into a strictly smaller
prefix and a no-larger suffix: it is the first entry attaining the maximum. -/
theorem pyMax_first (d : List (String × ℚ)) (hne : d ≠ []) :
    ∃ r l₁ l₂, pyMax d = some r ∧ d = l₁ ++ r :: l₂ ∧
      (∀ q ∈ d, q.2 ≤ r.2) ∧ (∀ q ∈ l₁, q.2 < r.2) := by
  induction d with
  | nil => exact absurd rfl hne
  | cons p rest ih =>
    cases hrest : pyMax rest with
    | none =>
      have hrnil : rest = [] := by
        cases rest with
        | nil => rfl
        | cons q rs =>
          obtain ⟨r, hr⟩ := pyMax_isSome_of_ne_nil (q :: rs) (by simp)
          rw [hr] at hrest
          exact absurd hrest (by simp)
      subst hrnil
      refine ⟨p, [], [], ?_, rfl, ?_, ?_⟩
      · simp [pyMax]
      · intro q hq
        simp at hq
        simp [hq]
      · intro q hq
        simp at hq
    | some r =>
      have hrne : rest ≠ [] := by
        intro hnil
        rw [hnil] at hrest
        exact absurd hrest (by simp [pyMax])
      obtain ⟨r0, l₁, l₂, hr0, hsplit, hmax, hpre⟩ := ih hrne
      rw [hr0] at hrest
      cases hrest
      have hstep : pyMax (p :: rest) = some (if r.2 > p.2 then r else p) := by
        unfold pyMax
        rw [hr0]
      by_cases hc : r.2 > p.2
      · refine ⟨r, p :: l₁, l₂, ?_, ?_, ?_, ?_⟩
        · rw [hstep, if_pos hc]
        · simp [hsplit]
        · intro q hq
          rcases List.mem_cons.mp hq with rfl | hq
          · exact le_of_lt hc
          · exact hmax q hq
        · intro q hq
          rcases List.mem_cons.mp hq with rfl | hq
          · exact hc
          · exact hpre q hq
      · refine ⟨p, [], rest, ?_, rfl, ?_, ?_⟩
        · rw [hstep, if_neg hc]
        · intro q hq
          rcases List.mem_cons.mp hq with rfl | hq
          · exact le_refl _
          · exact le_trans (hmax q hq) (not_lt.mp hc)
        · intro q hq
          simp at hq

/-- Looking up the key of the distinguished entry of a key-unique
association list finds that entry's value. -/
theorem lookup_middle (k : String) (v : ℚ) (l₁ l₂ : Dist)
    (h : k ∉ l₁.map Prod.fst) : ((l₁ ++ (k, v) :: l₂).lookup k) = some v := by
  induction l₁ with
  | nil => simp [List.lookup]
  | cons q rest ih =>
    have hk : k ≠ q.1 := by
      intro hkq
      exact h (by simp [hkq])
    have hmem : k ∉ rest.map Prod.fst := by
      intro hm
      exact h (by simp [hm])
    calc ((q :: rest ++ (k, v) :: l₂).lookup k)
        = ((rest ++ (k, v) :: l₂).lookup k) := by
          cases q with
          | mk qk qv =>
            have hbeq : (k == qk) = false := beq_eq_false_iff_ne.mpr hk
            simp [List.lookup, hbeq]
      _ = some v := ih hmem

/-- C2 counterexample: over the tied distribution
`[sadness ↦ 0.5, joy ↦ 0.5]` the code selects `sadness` (first insertion
wins), although `joy` also attains the maximum and `joy < sadness`
lexicographically, so the lexicographic tie-break of the claim is violated. -/
theorem dominant_tiebreak_not_lex :
    pyMax [("sadness", (1 : ℚ)/2), ("joy", (1 : ℚ)/2)] = some ("sadness", (1 : ℚ)/2) ∧
      ("joy" : String) < "sadness" ∧
      (∀ q ∈ [("sadness", (1 : ℚ)/2), ("joy", (1 : ℚ)/2)], q.2 ≤ (1 : ℚ)/2) := by
  refine ⟨?_, by rw [String.lt_iff_toList_lt]; decide, ?_⟩
  · simp [pyMax]
  · intro q hq
    simp only [List.mem_cons, List.not_mem_nil, or_false] at hq
    rcases hq with rfl | rfl <;> norm_num

/-- C2 (amended): the selected dominant entry is the first entry attaining
the maximal value in insertion order (not the lexicographic tie-break the
claim states), the reported confidence is that entry's value (which dict
indexing recovers), and over an all-zero distribution the first-inserted
label is selected with confidence 0. -/
theorem dominant_is_first_argmax (d : Dist) (hne : d ≠ [])
    (hnodup : (d.map Prod.fst).Nodup) :
    ∃ r l₁ l₂, pyMax d = some r ∧ d = l₁ ++ r :: l₂ ∧
      (∀ q ∈ d, q.2 ≤ r.2) ∧ (∀ q ∈ l₁, q.2 < r.2) ∧
      d.lookup r.1 = some r.2 ∧
      ((∀ q ∈ d, q.2 = 0) → pyMax d = d.head?) := by
  obtain ⟨r, l₁, l₂, hr, hsplit, hmax, hpre⟩ := pyMax_first d hne
  refine ⟨r, l₁, l₂, hr, hsplit, hmax, hpre, ?_, ?_⟩
  · have hnotmem : r.1 ∉ l₁.map Prod.fst := by
      intro hm
      rw [hsplit, List.map_append, List.map_cons] at hnodup
      rcases List.nodup_append.mp hnodup with ⟨-, -, hdisj⟩
      exact hdisj hm (by simp)
    rw [hsplit]
    cases r with
    | mk rk rv => exact lookup_middle rk rv l₁ l₂ hnotmem
  · intro hz
    have hrz : r.2 = 0 := hz r (by rw [hsplit]; simp)
    have hl₁ : l₁ = [] := by
      cases hl : l₁ with
      | nil => rfl
      | cons q rest =>
        have hq : q ∈ l₁ := by rw [hl]; simp
        have hqz : q.2 = 0 := hz q (by rw [hsplit]; exact List.mem_append_left _ hq)
        have := hpre q hq
        rw [hqz, hrz] at this
        exact absurd this (lt_irrefl 0)
    rw [hr, hsplit, hl₁]
    rfl

/-- Witness for C2's amended theorem on a concrete two-label distribution. -/
theorem dominant_is_first_argmax_witness :
    ∃ r l₁ l₂, pyMax [("joy", (2 : ℚ)/5), ("sadness", (3 : ℚ)/5)] = some r ∧
      [("joy", (2 : ℚ)/5), ("sadness", (3 : ℚ)/5)] = l₁ ++ r :: l₂ ∧
      (∀ q ∈ [("joy", (2 : ℚ)/5), ("sadness", (3 : ℚ)/5)], q.2 ≤ r.2) ∧
      (∀ q ∈ l₁, q.2 < r.2) ∧
      ([("joy", (2 : ℚ)/5), ("sadness", (3 : ℚ)/5)] : Dist).lookup r.1 = some r.2 ∧
      ((∀ q ∈ [("joy", (2 : ℚ)/5), ("sadness", (3 : ℚ)/5)], q.2 = 0) →
        pyMax [("joy", (2 : ℚ)/5), ("sadness", (3 : ℚ)/5)] =
          [("joy", (2 : ℚ)/5), ("sadness", (3 : ℚ)/5)].head?) :=
  dominant_is_first_argmax [("joy", (2 : ℚ)/5), ("sadness", (3 : ℚ)/5)]
    (by simp) (by decide)

/-- C4: for every label and confidence in `[0, 1]`, the mood score is
`clamp(base + (confidence - 0.5) * 2, 1, 10)` with `base` given by the
spec's table, and the result always lies in `[1, 10]`. -/
theorem emotion_to_mood_score_spec (e : String) (c : ℚ)
    (h0 : 0 ≤ c) (h1 : c ≤ 1) :
    emotion_to_mood_score e c = max 1 (min 10 (claimBaseScore e + (c - 0.5) * 2)) ∧
      1 ≤ emotion_to_mood_score e c ∧ emotion_to_mood_score e c ≤ 10 := by
  have hbase : ((emotion_scores.lookup e).getD 5) = claimBaseScore e := by
    unfold emotion_scores claimBaseScore
    by_cases hj : e = "joy"
    · simp [List.lookup_cons, hj]
    by_cases hl : e = "love"
    · simp [List.lookup_cons, beq_eq_false_iff_ne.mpr hj, hj, hl]
    by_cases ho : e = "optimism"
    · simp [List.lookup_cons, beq_eq_false_iff_ne.mpr hj,
        beq_eq_false_iff_ne.mpr hl, hj, hl, ho]
    by_cases hn : e = "neutral"
    · simp [List.lookup_cons, beq_eq_false_iff_ne.mpr hj,
        beq_eq_false_iff_ne.mpr hl, beq_eq_false_iff_ne.mpr ho, hj, hl, ho, hn]
    by_cases hs : e = "sadness"
    · simp [List.lookup_cons, beq_eq_false_iff_ne.mpr hj,
        beq_eq_false_iff_ne.mpr hl, beq_eq_false_iff_ne.mpr ho,
        beq_eq_false_iff_ne.mpr hn, hj, hl, ho, hn, hs]
    by_cases ha : e = "anger"
    · simp [List.lookup_cons, beq_eq_false_iff_ne.mpr hj,
        beq_eq_false_iff_ne.mpr hl, beq_eq_false_iff_ne.mpr ho,
        beq_eq_false_iff_ne.mpr hn, beq_eq_false_iff_ne.mpr hs,
        hj, hl, ho, hn, hs, ha]
    by_cases hf : e = "fear"
    · simp [List.lookup_cons, beq_eq_false_iff_ne.mpr hj,
        beq_eq_false_iff_ne.mpr hl, beq_eq_false_iff_ne.mpr ho,
        beq_eq_false_iff_ne.mpr hn, beq_eq_false_iff_ne.mpr hs,
        beq_eq_false_iff_ne.mpr ha, hj, hl, ho, hn, hs, ha, hf]
    by_cases hu : e = "surprise"
    · simp [List.lookup_cons, beq_eq_false_iff_ne.mpr hj,
        beq_eq_false_iff_ne.mpr hl, beq_eq_false_iff_ne.mpr ho,
        beq_eq_false_iff_ne.mpr hn, beq_eq_false_iff_ne.mpr hs,
        beq_eq_false_iff_ne.mpr ha, beq_eq_false_iff_ne.mpr hf,
        hj, hl, ho, hn, hs, ha, hf, hu]
    · simp [List.lookup_cons, beq_eq_false_iff_ne.mpr hj,
        beq_eq_false_iff_ne.mpr hl, beq_eq_false_iff_ne.mpr ho,
        beq_eq_false_iff_ne.mpr hn, beq_eq_false_iff_ne.mpr hs,
        beq_eq_false_iff_ne.mpr ha, beq_eq_false_iff_ne.mpr hf,
        beq_eq_false_iff_ne.mpr hu, hj, hl, ho, hn, hs, ha, hf, hu]
  have hval : emotion_to_mood_score e c =
      max 1 (min 10 (((emotion_scores.lookup e).getD 5) + (c - 0.5) * 2)) := rfl
  rw [hval, hbase]
  exact ⟨rfl, le_max_left _ _, max_le (by norm_num) (min_le_left _ _)⟩

/-- Witness for C4 at label `surprise`, confidence `0.75`. -/
theorem emotion_to_mood_score_spec_witness :
    emotion_to_mood_score "surprise" 0.75 =
        max 1 (min 10 (claimBaseScore "surprise" + ((0.75 : ℚ) - 0.5) * 2)) ∧
      1 ≤ emotion_to_mood_score "surprise" 0.75 ∧
      emotion_to_mood_score "surprise" 0.75 ≤ 10 :=
  emotion_to_mood_score_spec "surprise" 0.75 (by norm_num) (by norm_num)

/-- C7: for a descriptor whose (defaulted) `valence`, `energy`,
`danceability` lie in `[0, 1]`, the output is a distribution over
`joy, sadness, anger, fear` summing to 1 within `1e-9` (exactly 1 here). -/
theorem audio_features_to_emotions_sums_to_one (features : Dist)
    (hv0 : 0 ≤ getD features "valence" 0.5) (hv1 : getD features "valence" 0.5 ≤ 1)
    (he0 : 0 ≤ getD features "energy" 0.5) (he1 : getD features "energy" 0.5 ≤ 1)
    (hd0 : 0 ≤ getD features "danceability" 0.5)
    (hd1 : getD features "danceability" 0.5 ≤ 1) :
    (audio_features_to_emotions features).map Prod.fst =
        ["joy", "sadness", "anger", "fear"] ∧
      |((audio_features_to_emotions features).map Prod.snd).sum - 1| ≤
        1 / 1000000000 := by
  set v := getD features "valence" 0.5 with hv
  set en := getD features "energy" 0.5 with he
  set d := getD features "danceability" 0.5 with hd
  have htot : ((([("joy", v + d * 0.3), ("sadness", 1 - v),
      ("anger", en * 0.7), ("fear", en * 0.3)] : Dist).map Prod.snd).sum) =
      1 + d * 0.3 + en := by
    simp only [List.map_cons, List.map_nil, List.sum_cons, List.sum_nil]
    ring
  have hpos : 0 < ((([("joy", v + d * 0.3), ("sadness", 1 - v),
      ("anger", en * 0.7), ("fear", en * 0.3)] : Dist).map Prod.snd).sum) := by
    rw [htot]
    nlinarith
  have hrw : audio_features_to_emotions features =
      ([("joy", v + d * 0.3), ("sadness", 1 - v),
        ("anger", en * 0.7), ("fear", en * 0.3)] : Dist).map
        (fun p => (p.1, p.2 / ((([("joy", v + d * 0.3), ("sadness", 1 - v),
          ("anger", en * 0.7), ("fear", en * 0.3)] : Dist).map Prod.snd).sum))) := by
    unfold audio_features_to_emotions
    rw [← hv, ← he, ← hd]
    simp only []
    rw [if_pos hpos]
  constructor
  · rw [hrw]
    refine Eq.trans (map_fst_of_preserved _ _ ?_) ?_
    · intro p
      rfl
    · rfl
  · rw [hrw, sum_map_snd_div, div_self (ne_of_gt hpos)]
    norm_num

/-- Witness for C7 at the spec's worked example descriptor
`valence 0.8, energy 0.3, danceability 0.2`. -/
theorem audio_features_to_emotions_sums_to_one_witness :
    (audio_features_to_emotions
        [("valence", 0.8), ("energy", 0.3), ("danceability", 0.2)]).map Prod.fst =
        ["joy", "sadness", "anger", "fear"] ∧
      |((audio_features_to_emotions
        [("valence", 0.8), ("energy", 0.3), ("danceability", 0.2)]).map Prod.snd).sum
        - 1| ≤ 1 / 1000000000 :=
  audio_features_to_emotions_sums_to_one
    [("valence", 0.8), ("energy", 0.3), ("danceability", 0.2)]
    (by simp [getD, List.lookup_cons] <;> norm_num)
    (by simp [getD, List.lookup_cons] <;> norm_num)
    (by simp [getD, List.lookup_cons] <;> norm_num)
    (by simp [getD, List.lookup_cons] <;> norm_num)
    (by simp [getD, List.lookup_cons] <;> norm_num)
    (by simp [getD, List.lookup_cons] <;> norm_num)

/-- C8: at a descriptor whose unnormalized values sum to 0
(`valence 0.5, energy -1, danceability 0`), the code returns the
unnormalized (non-uniform, partly negative) map instead of the uniform
fallback distribution the specification prescribes. -/
theorem audio_zero_sum_left_unnormalized :
    audio_features_to_emotions [("valence", 0.5), ("energy", -1), ("danceability", 0)] =
        [("joy", 0.5), ("sadness", 0.5), ("anger", -0.7), ("fear", -0.3)] ∧
      audio_features_to_emotions [("valence", 0.5), ("energy", -1), ("danceability", 0)] ≠
        [("joy", 0.25), ("sadness", 0.25), ("anger", 0.25), ("fear", 0.25)] := by
  have h : audio_features_to_emotions
      [("valence", 0.5), ("energy", -1), ("danceability", 0)] =
      [("joy", 0.5), ("sadness", 0.5), ("anger", -0.7), ("fear", -0.3)] := by
    simp [audio_features_to_emotions, getD, List.lookup_cons]
    norm_num
  refine ⟨h, ?_⟩
  rw [h]
  norm_num

/-- C5: the per-track score is the tag-overlap count times 0.5 plus the
audio term (`joy`: `valence*0.3 + energy*0.2`; `sadness`:
`(1-valence)*0.3 + (1-energy)*0.2`; otherwise 0), and with audio features
in `[0, 1]` it is never negative. -/
theorem track_score_formula_nonneg (dom : String) (t : TrackData)
    (hv0 : 0 ≤ t.audio_features.valence) (hv1 : t.audio_features.valence ≤ 1)
    (he0 : 0 ≤ t.audio_features.energy) (he1 : t.audio_features.energy ≤ 1) :
    (∀ target : List String, track_score dom target t =
        ((matching_mood_tags target t).length : ℚ) * 0.5 +
          (if dom = "joy" then
            t.audio_features.valence * 0.3 + t.audio_features.energy * 0.2
          else if dom = "sadness" then
            (1 - t.audio_features.valence) * 0.3 + (1 - t.audio_features.energy) * 0.2
          else 0)) ∧
      (∀ target : List String, 0 ≤ track_score dom target t) := by
  have hn : ∀ target : List String,
      (0 : ℚ) ≤ ((matching_mood_tags target t).length : ℚ) :=
    fun target => Nat.cast_nonneg _
  constructor
  · intro target
    unfold track_score
    split_ifs <;> ring
  · intro target
    unfold track_score
    have := hn target
    split_ifs <;> nlinarith

/-- Witness for C5 at dominant emotion `sadness` and the demo calm track. -/
theorem track_score_formula_nonneg_witness :
    (∀ target : List String, track_score "sadness" target witnessTrack =
        ((matching_mood_tags target witnessTrack).length : ℚ) * 0.5 +
          (if ("sadness" : String) = "joy" then
            witnessTrack.audio_features.valence * 0.3 +
              witnessTrack.audio_features.energy * 0.2
          else if ("sadness" : String) = "sadness" then
            (1 - witnessTrack.audio_features.valence) * 0.3 +
              (1 - witnessTrack.audio_features.energy) * 0.2
          else 0)) ∧
      (∀ target : List String, 0 ≤ track_score "sadness" target witnessTrack) :=
  track_score_formula_nonneg "sadness" witnessTrack
    (by norm_num [witnessTrack]) (by norm_num [witnessTrack])
    (by norm_num [witnessTrack]) (by norm_num [witnessTrack])

/-- C3 counterexample: two entries tied at score 1 with trackIds `b` before
`a` keep their input order after sorting, so the tie is not broken by
ascending trackId. -/
theorem ranker_tie_not_trackid_ascending :
    pySortDesc [tieB, tieA] = [tieB, tieA] ∧ tieA.track_id < tieB.track_id ∧
      tieA.score = tieB.score ∧ tieB.track_id ≠ tieA.track_id := by
  refine ⟨?_, ?_, rfl, by decide⟩
  · exact List.mergeSort_of_sorted (by simp [List.pairwise_cons, tieA, tieB])
  · show ("a" : String) < "b"
    rw [String.lt_iff_toList_lt]
    decide

/-- C3 (amended): the ranker's sort is a permutation of its input, sorted
by score descending, and entries with equal scores keep their input order
(Python's sort is stable) rather than being reordered by trackId. -/
theorem ranker_sorted_desc_stable (l : List ScoredTrack) :
    (pySortDesc l).Perm l ∧
      (pySortDesc l).Pairwise (fun a b => b.score ≤ a.score) ∧
      (∀ a b, [a, b].Sublist l → a.score = b.score →
        [a, b].Sublist (pySortDesc l)) := by
  have htrans : ∀ a b c : ScoredTrack,
      (decide (b.score ≤ a.score)) = true → (decide (c.score ≤ b.score)) = true →
      (decide (c.score ≤ a.score)) = true := by
    intro a b c hab hbc
    simp only [decide_eq_true_eq] at *
    exact le_trans hbc hab
  have htotal : ∀ a b : ScoredTrack,
      ((decide (b.score ≤ a.score)) || (decide (a.score ≤ b.score))) = true := by
    intro a b
    simp only [Bool.or_eq_true, decide_eq_true_eq]
    exact le_total b.score a.score
  refine ⟨List.mergeSort_perm l _, ?_, ?_⟩
  · exact (List.sorted_mergeSort htrans htotal l).imp (fun h => of_decide_eq_true h)
  · intro a b hsub heq
    exact List.pair_sublist_mergeSort htrans htotal (by simp [heq]) hsub

/-- Witness for C3's amended theorem on a concrete tied pair. -/
theorem ranker_sorted_desc_stable_witness :
    (pySortDesc [tieB, tieA]).Perm [tieB, tieA] ∧
      [tieB, tieA].Sublist (pySortDesc [tieB, tieA]) :=
  ⟨(ranker_sorted_desc_stable [tieB, tieA]).1,
    (ranker_sorted_desc_stable [tieB, tieA]).2.2 tieB tieA
      (List.Sublist.refl _) rfl⟩

/-- C6: with a positive limit (and a nonempty mood map, without which the
code raises), `recommend` returns exactly `min(limit, catalogSize)` entries,
in particular never more than `limit`. -/
theorem recommend_returns_min_limit_catalog (catalog : List (String × TrackData))
    (mood : Dist) (limit : Int) (hm : mood ≠ []) (hl : 0 < limit) :
    ∃ out, get_mood_based_recommendations catalog mood limit = some out ∧
      out.length = min limit.toNat catalog.length ∧ out.length ≤ limit.toNat := by
  obtain ⟨r, hr⟩ := pyMax_isSome_of_ne_nil mood hm
  refine ⟨pySliceTo (pySortDesc (catalog.map (score_entry r.1
      ((emotion_to_mood_tags.lookup r.1).getD ["neutral"])))) limit, ?_, ?_, ?_⟩
  · unfold get_mood_based_recommendations
    rw [hr]
  · unfold pySliceTo
    rw [if_pos (le_of_lt hl), List.length_take]
    unfold pySortDesc
    rw [List.length_mergeSort, List.length_map]
  · unfold pySliceTo
    rw [if_pos (le_of_lt hl), List.length_take]
    exact min_le_left _ _

/-- Witness for C6: the demo catalog with `limit = 5` yields both entries. -/
theorem recommend_returns_min_limit_catalog_witness :
    ∃ out, get_mood_based_recommendations load_music_features [("joy", 1)] 5 = some out ∧
      out.length = min (5 : Int).toNat load_music_features.length ∧
      out.length ≤ (5 : Int).toNat :=
  recommend_returns_min_limit_catalog load_music_features [("joy", 1)] 5
    (by simp) (by norm_num)

/-- C9 counterexample: invoking `recommend` on the demo catalog with
`limit = 0` is not rejected: scoring proceeds and the empty slice is
returned instead of an `InvalidInput` error. -/
theorem recommend_limit_zero_returns_empty :
    get_mood_based_recommendations load_music_features [("joy", 1)] 0 = some [] := by
  rfl

/-- C9 (amended): a nonpositive limit is not rejected; the sorted scoring
result is truncated by Python slice semantics instead (`limit = 0` yields
the empty list, a negative limit drops the last `|limit|` entries). -/
theorem recommend_nonpositive_limit_not_rejected
    (catalog : List (String × TrackData)) (mood : Dist) (limit : Int)
    (hm : mood ≠ []) (hl : limit ≤ 0) :
    ∃ out, get_mood_based_recommendations catalog mood limit = some out ∧
      (limit = 0 → out = []) ∧
      (limit < 0 → out.length = catalog.length - (-limit).toNat) := by
  obtain ⟨r, hr⟩ := pyMax_isSome_of_ne_nil mood hm
  refine ⟨pySliceTo (pySortDesc (catalog.map (score_entry r.1
      ((emotion_to_mood_tags.lookup r.1).getD ["neutral"])))) limit, ?_, ?_, ?_⟩
  · unfold get_mood_based_recommendations
    rw [hr]
  · intro h0
    subst h0
    unfold pySliceTo
    simp
  · intro hneg
    unfold pySliceTo
    rw [if_neg (not_le.mpr hneg), List.length_take]
    unfold pySortDesc
    rw [List.length_mergeSort, List.length_map]
    exact min_eq_left (Nat.sub_le _ _)

/-- Witness for C9's amended theorem at `limit = -1` on the demo catalog. -/
theorem recommend_nonpositive_limit_not_rejected_witness :
    ∃ out, get_mood_based_recommendations load_music_features [("joy", 1)] (-1) = some out ∧
      ((-1 : Int) = 0 → out = []) ∧
      ((-1 : Int) < 0 →
        out.length = load_music_features.length - (-(-1) : Int).toNat) :=
  recommend_nonpositive_limit_not_rejected load_music_features [("joy", 1)] (-1)
    (by simp) (by norm_num)

end SwarLoop
